import Mathlib

/-!
Verification development for the "Dungeons and Money" insecure-deserialization
demo server (`src/main.rs`).  The server exposes two endpoints that both take a
body field `playerState` holding base64-encoded JSON:

* `vulnerable_state_update` binds the decoded JSON against the permissive
  `VulnerablePlayerState` schema (extra fields ignored; the gadget fields
  `isAdmin` and `gold` are themselves declared as optional fields) and then
  branches on the gadget fields when building the success message;
* `secure_state_update` binds against `SecurePlayerState`
  (`deny_unknown_fields`) and additionally enforces the sword-level bound
  `items[2] <= 20`.

The embedding models JSON documents as a tree (`Json`), the base64 decoder of
the `base64` crate's `STANDARD` engine (padded, canonical), a JSON parser over
the decoded bytes (restricted to the integer-numeral, simple-escape fragment of
JSON that the demo exercises), and serde's derived deserializers as a fold over
the object's field list in document order, with first-error-wins semantics:
duplicate declared fields and ill-typed declared values fail in both schemas,
unknown fields fail only under `deny_unknown_fields`.  Machine integers are
modelled as `Nat`/`Int` with explicit range checks (`u32`, `i32`).
-/

set_option autoImplicit false

namespace InsecureDeser

/-- A parsed JSON document.  Objects keep their fields as a list in document
order (duplicates possible at parse level; serde's derived deserializers are
what reject duplicates of declared fields). -/
inductive Json where
  | null
  | bool (b : Bool)
  | num (n : Int)
  | str (s : String)
  | arr (elems : List Json)
  | obj (fields : List (String × Json))

/-- Index of a character in the standard base64 alphabet. -/
def b64Index (c : Char) : Option Nat :=
  if 'A' ≤ c ∧ c ≤ 'Z' then some (c.toNat - 65)
  else if 'a' ≤ c ∧ c ≤ 'z' then some (c.toNat - 97 + 26)
  else if '0' ≤ c ∧ c ≤ '9' then some (c.toNat - 48 + 52)
  else if c = '+' then some 62
  else if c = '/' then some 63
  else none

/-- Decode a base64 character stream in groups of four, requiring canonical
padding and zero trailing bits, as the `base64` crate's `STANDARD` engine
does.  Any other shape (wrong length, invalid alphabet, padding not at the
end, non-zero discarded bits) is a decode error. -/
def b64Groups : List Char → Option (List Nat)
  | [] => some []
  | c1 :: c2 :: c3 :: c4 :: rest =>
    match b64Index c1, b64Index c2 with
    | some a, some b =>
      if c3 = '=' then
        if c4 = '=' ∧ rest = [] ∧ b % 16 = 0 then
          some [a * 4 + b / 16]
        else none
      else if c4 = '=' then
        match b64Index c3 with
        | some c =>
          if rest = [] ∧ c % 4 = 0 then
            some [a * 4 + b / 16, (b % 16) * 16 + c / 4]
          else none
        | none => none
      else
        match b64Index c3, b64Index c4 with
        | some c, some d =>
          match b64Groups rest with
          | some bs => some ([a * 4 + b / 16, (b % 16) * 16 + c / 4, (c % 4) * 64 + d] ++ bs)
          | none => none
        | _, _ => none
    | _, _ => none
  | _ => none

/-- `general_purpose::STANDARD.decode`: standard alphabet, padding required. -/
def base64Decode (s : String) : Option (List Nat) :=
  b64Groups s.data

/-- View decoded bytes as characters (the demo only exercises ASCII payloads). -/
def bytesToChars (bs : List Nat) : List Char :=
  bs.map Char.ofNat

def lbrace : Char := Char.ofNat 123
def rbrace : Char := Char.ofNat 125
def quoteChar : Char := Char.ofNat 34
def backslashChar : Char := Char.ofNat 92

def skipWs : List Char → List Char
  | [] => []
  | c :: rest => if c = ' ' ∨ c = '\n' ∨ c = '\t' ∨ c = '\r' then skipWs rest else c :: rest

/-- Simple-escape table of the JSON string grammar. -/
def escChar (c : Char) : Option Char :=
  if c = quoteChar then some quoteChar
  else if c = backslashChar then some backslashChar
  else if c = '/' then some '/'
  else if c = 'n' then some '\n'
  else if c = 't' then some '\t'
  else if c = 'r' then some '\r'
  else if c = 'b' then some (Char.ofNat 8)
  else if c = 'f' then some (Char.ofNat 12)
  else none

/-- Body of a JSON string literal, after the opening quote. -/
def parseStrBody : List Char → Except String (List Char × List Char)
  | [] => .error "unterminated string"
  | c :: rest =>
    if c = quoteChar then .ok ([], rest)
    else if c = backslashChar then
      match rest with
      | [] => .error "unterminated string"
      | e :: rest2 =>
        match escChar e with
        | none => .error "invalid escape"
        | some ec =>
          match parseStrBody rest2 with
          | .ok (cs, rem) => .ok (ec :: cs, rem)
          | .error m => .error m
    else
      match parseStrBody rest with
      | .ok (cs, rem) => .ok (c :: cs, rem)
      | .error m => .error m

def parseDigits : List Char → (List Nat × List Char)
  | [] => ([], [])
  | c :: rest =>
    if c.isDigit then
      let p := parseDigits rest
      ((c.toNat - 48) :: p.1, p.2)
    else ([], c :: rest)

def digitsVal (ds : List Nat) : Nat :=
  ds.foldl (fun acc d => acc * 10 + d) 0

/-- Match a literal keyword tail such as `ull` of `null`. -/
def dropLit : List Char → List Char → Option (List Char)
  | [], cs => some cs
  | _, [] => none
  | l :: ls, c :: cs => if c = l then dropLit ls cs else none

mutual

/-- Parse one JSON value (fuel-indexed to make the nesting recursion
structural; callers supply ample fuel). -/
def parseVal : Nat → List Char → Except String (Json × List Char)
  | 0, _ => .error "recursion limit exceeded"
  | fuel + 1, cs =>
    match skipWs cs with
    | [] => .error "unexpected end of input"
    | c :: rest =>
      if c = 'n' then
        match dropLit ['u', 'l', 'l'] rest with
        | some rem => .ok (.null, rem)
        | none => .error "expected value"
      else if c = 't' then
        match dropLit ['r', 'u', 'e'] rest with
        | some rem => .ok (.bool true, rem)
        | none => .error "expected value"
      else if c = 'f' then
        match dropLit ['a', 'l', 's', 'e'] rest with
        | some rem => .ok (.bool false, rem)
        | none => .error "expected value"
      else if c = quoteChar then
        match parseStrBody rest with
        | .ok (cs2, rem) => .ok (.str (String.mk cs2), rem)
        | .error m => .error m
      else if c = '-' then
        match parseDigits rest with
        | ([], _) => .error "expected value"
        | (ds, rem) => .ok (.num (-(digitsVal ds : Int)), rem)
      else if c.isDigit then
        match parseDigits (c :: rest) with
        | (ds, rem) => .ok (.num (digitsVal ds : Int), rem)
      else if c = '[' then
        match skipWs rest with
        | ']' :: rem => .ok (.arr [], rem)
        | cs2 => match parseArrItems fuel cs2 with
          | .ok (xs, rem) => .ok (.arr xs, rem)
          | .error m => .error m
      else if c = lbrace then
        match skipWs rest with
        | d :: rem =>
          if d = rbrace then .ok (.obj [], rem)
          else match parseObjItems fuel (d :: rem) with
            | .ok (fs, rem2) => .ok (.obj fs, rem2)
            | .error m => .error m
        | [] => .error "unexpected end of input"
      else .error "expected value"

/-- Parse array elements (positioned at the start of an element). -/
def parseArrItems : Nat → List Char → Except String (List Json × List Char)
  | 0, _ => .error "recursion limit exceeded"
  | fuel + 1, cs =>
    match parseVal fuel cs with
    | .error m => .error m
    | .ok (v, rem) =>
      match skipWs rem with
      | ']' :: rem2 => .ok ([v], rem2)
      | ',' :: rem2 =>
        match parseArrItems fuel rem2 with
        | .ok (xs, rem3) => .ok (v :: xs, rem3)
        | .error m => .error m
      | _ => .error "expected comma or bracket"

/-- Parse object members (positioned at the start of a key). -/
def parseObjItems : Nat → List Char → Except String (List (String × Json) × List Char)
  | 0, _ => .error "recursion limit exceeded"
  | fuel + 1, cs =>
    match skipWs cs with
    | [] => .error "unexpected end of input"
    | c :: rest =>
      if c = quoteChar then
        match parseStrBody rest with
        | .error m => .error m
        | .ok (kcs, rem) =>
          match skipWs rem with
          | ':' :: rem2 =>
            match parseVal fuel rem2 with
            | .error m => .error m
            | .ok (v, rem3) =>
              match skipWs rem3 with
              | ',' :: rem4 =>
                (match parseObjItems fuel rem4 with
                 | .ok (fs, rem5) => .ok ((String.mk kcs, v) :: fs, rem5)
                 | .error m => .error m)
              | d :: rem4 =>
                if d = rbrace then .ok ([(String.mk kcs, v)], rem4)
                else .error "expected comma or brace"
              | [] => .error "unexpected end of input"
          | _ => .error "expected colon"
      else .error "key must be a string"

end

/-- `serde_json::from_slice`'s syntactic phase: parse the whole byte slice as
one JSON document, rejecting trailing non-whitespace. -/
def parseJson (bytes : List Nat) : Except String Json :=
  let cs := bytesToChars bytes
  match parseVal (2 * cs.length + 4) cs with
  | .error m => .error m
  | .ok (v, rem) =>
    match skipWs rem with
    | [] => .ok v
    | _ => .error "trailing characters"

/-- Error cases of serde's derived deserializers that the demo's schemas can
hit.  `serde_json` reports these as message strings; we keep the structured
cause and render it with `deErrMsg`. -/
inductive DeError where
  | invalidType (expected : String)
  | invalidLength (len : Nat)
  | missingField (name : String)
  | duplicateField (name : String)
  | unknownField (name : String)
  deriving DecidableEq

def deErrMsg : DeError → String
  | .invalidType expected => "invalid type, expected " ++ expected
  | .invalidLength len => "invalid length " ++ toString len ++ ", expected an array of 5 u32 values"
  | .missingField name => "missing field " ++ name
  | .duplicateField name => "duplicate field " ++ name
  | .unknownField name => "unknown field " ++ name ++ ", expected equipment or location"

def isOkE {α : Type} : Except DeError α → Bool
  | .ok _ => true
  | .error _ => false

/-- Deserialize a `u32` (range `[0, 2^32)`, written as literals so that the
bound reduces). -/
def deU32 : Json → Except DeError Nat
  | .num n => if 0 ≤ n ∧ n < 4294967296 then .ok n.toNat else .error (.invalidType "u32")
  | _ => .error (.invalidType "u32")

/-- Deserialize an `i32` (range `[-2^31, 2^31)`, written as literals). -/
def deI32 : Json → Except DeError Int
  | .num n => if -2147483648 ≤ n ∧ n < 2147483648 then .ok n else .error (.invalidType "i32")
  | _ => .error (.invalidType "i32")

def deBool : Json → Except DeError Bool
  | .bool b => .ok b
  | _ => .error (.invalidType "a boolean")

def deString : Json → Except DeError String
  | .str s => .ok s
  | _ => .error (.invalidType "a string")

/-- serde's `Option<T>`: `null` is `None`, anything else must deserialize as `T`. -/
def deOpt {α : Type} (f : Json → Except DeError α) : Json → Except DeError (Option α)
  | .null => .ok none
  | v => (f v).map some

def deU32List : List Json → Except DeError (List Nat)
  | [] => .ok []
  | v :: rest =>
    match deU32 v with
    | .error e => .error e
    | .ok n =>
      match deU32List rest with
      | .error e => .error e
      | .ok ns => .ok (n :: ns)

/-- Deserialize the `[u32; 5]` items array. -/
def deItems : Json → Except DeError (Fin 5 → Nat)
  | .arr xs =>
    (match deU32List xs with
     | .error e => .error e
     | .ok ns =>
       if ns.length = 5 then .ok (fun i => ns.getD i 0) else .error (.invalidLength xs.length))
  | _ => .error (.invalidType "an array")

/-- `struct Equipment { items: [u32; 5] }` (no `deny_unknown_fields`). -/
structure Equipment where
  items : Fin 5 → Nat

/-- `struct Location { x: i32, y: i32, zone: String }`. -/
structure Location where
  x : Int
  y : Int
  zone : String

/-- `struct VulnerablePlayerState` — permissive schema; the gadget fields
`is_admin` / `gold` are declared as optional fields (serde names `isAdmin`,
`gold` under `rename_all = "camelCase"`). -/
structure VulnerablePlayerState where
  equipment : Equipment
  location : Location
  is_admin : Option Bool
  gold : Option Nat

/-- `struct SecurePlayerState` — strict schema, `deny_unknown_fields`. -/
structure SecurePlayerState where
  equipment : Equipment
  location : Location

/-- Derived deserializer of `Equipment`: walk the fields in document order,
filling the `items` slot; duplicates of a declared field fail, unknown fields
are ignored, and a missing declared field fails at the end. -/
def eqpFromFields : List (String × Json) → Option (Fin 5 → Nat) → Except DeError Equipment
  | [], it? =>
    (match it? with
     | none => .error (.missingField "items")
     | some it => .ok ⟨it⟩)
  | (k, v) :: rest, it? =>
    if k = "items" then
      match it? with
      | some _ => .error (.duplicateField "items")
      | none =>
        match deItems v with
        | .error e => .error e
        | .ok it => eqpFromFields rest (some it)
    else eqpFromFields rest it?

def Equipment.deserialize : Json → Except DeError Equipment
  | .obj fields => eqpFromFields fields none
  | _ => .error (.invalidType "struct Equipment")

/-- Derived deserializer of `Location`. -/
def locFromFields : List (String × Json) → Option Int → Option Int → Option String →
    Except DeError Location
  | [], x?, y?, z? =>
    (match x? with
     | none => .error (.missingField "x")
     | some x =>
       match y? with
       | none => .error (.missingField "y")
       | some y =>
         match z? with
         | none => .error (.missingField "zone")
         | some z => .ok ⟨x, y, z⟩)
  | (k, v) :: rest, x?, y?, z? =>
    if k = "x" then
      match x? with
      | some _ => .error (.duplicateField "x")
      | none =>
        match deI32 v with
        | .error e => .error e
        | .ok x => locFromFields rest (some x) y? z?
    else if k = "y" then
      match y? with
      | some _ => .error (.duplicateField "y")
      | none =>
        match deI32 v with
        | .error e => .error e
        | .ok y => locFromFields rest x? (some y) z?
    else if k = "zone" then
      match z? with
      | some _ => .error (.duplicateField "zone")
      | none =>
        match deString v with
        | .error e => .error e
        | .ok z => locFromFields rest x? y? (some z)
    else locFromFields rest x? y? z?

def Location.deserialize : Json → Except DeError Location
  | .obj fields => locFromFields fields none none none
  | _ => .error (.invalidType "struct Location")

/-- Derived deserializer of `VulnerablePlayerState`: unknown fields are
silently skipped (no `deny_unknown_fields`); the declared fields — including
the gadget fields `isAdmin` and `gold` — must be unique and well-typed; a
missing optional field defaults to `none`. -/
def vulnFromFields : List (String × Json) → Option Equipment → Option Location →
    Option (Option Bool) → Option (Option Nat) → Except DeError VulnerablePlayerState
  | [], eq?, loc?, ia?, g? =>
    (match eq? with
     | none => .error (.missingField "equipment")
     | some eqp =>
       match loc? with
       | none => .error (.missingField "location")
       | some loc => .ok ⟨eqp, loc, ia?.getD none, g?.getD none⟩)
  | (k, v) :: rest, eq?, loc?, ia?, g? =>
    if k = "equipment" then
      match eq? with
      | some _ => .error (.duplicateField "equipment")
      | none =>
        match Equipment.deserialize v with
        | .error e => .error e
        | .ok eqp => vulnFromFields rest (some eqp) loc? ia? g?
    else if k = "location" then
      match loc? with
      | some _ => .error (.duplicateField "location")
      | none =>
        match Location.deserialize v with
        | .error e => .error e
        | .ok loc => vulnFromFields rest eq? (some loc) ia? g?
    else if k = "isAdmin" then
      match ia? with
      | some _ => .error (.duplicateField "isAdmin")
      | none =>
        match deOpt deBool v with
        | .error e => .error e
        | .ok b => vulnFromFields rest eq? loc? (some b) g?
    else if k = "gold" then
      match g? with
      | some _ => .error (.duplicateField "gold")
      | none =>
        match deOpt deU32 v with
        | .error e => .error e
        | .ok g => vulnFromFields rest eq? loc? ia? (some g)
    else vulnFromFields rest eq? loc? ia? g?

def VulnerablePlayerState.deserialize : Json → Except DeError VulnerablePlayerState
  | .obj fields => vulnFromFields fields none none none none
  | _ => .error (.invalidType "struct VulnerablePlayerState")

/-- Derived deserializer of `SecurePlayerState` under `deny_unknown_fields`:
any key other than `equipment` / `location` is an immediate unknown-field
error, raised before the key's value is even looked at. -/
def secFromFields : List (String × Json) → Option Equipment → Option Location →
    Except DeError SecurePlayerState
  | [], eq?, loc? =>
    (match eq? with
     | none => .error (.missingField "equipment")
     | some eqp =>
       match loc? with
       | none => .error (.missingField "location")
       | some loc => .ok ⟨eqp, loc⟩)
  | (k, v) :: rest, eq?, loc? =>
    if k = "equipment" then
      match eq? with
      | some _ => .error (.duplicateField "equipment")
      | none =>
        match Equipment.deserialize v with
        | .error e => .error e
        | .ok eqp => secFromFields rest (some eqp) loc?
    else if k = "location" then
      match loc? with
      | some _ => .error (.duplicateField "location")
      | none =>
        match Location.deserialize v with
        | .error e => .error e
        | .ok loc => secFromFields rest eq? (some loc)
    else .error (.unknownField k)

def SecurePlayerState.deserialize : Json → Except DeError SecurePlayerState
  | .obj fields => secFromFields fields none none
  | _ => .error (.invalidType "struct SecurePlayerState")

/-- `#[derive(Serialize)]` for `Equipment`. -/
def Equipment.toJson (e : Equipment) : Json :=
  .obj [("items", .arr [.num (e.items 0), .num (e.items 1), .num (e.items 2),
                        .num (e.items 3), .num (e.items 4)])]

/-- `#[derive(Serialize)]` for `Location`. -/
def Location.toJson (l : Location) : Json :=
  .obj [("x", .num l.x), ("y", .num l.y), ("zone", .str l.zone)]

/-- `#[derive(Serialize)]` for `SecurePlayerState` (camelCase field names, in
declaration order). -/
def SecurePlayerState.toJson (st : SecurePlayerState) : Json :=
  .obj [("equipment", st.equipment.toJson), ("location", st.location.toJson)]

/-- An HTTP response: status code and plain-text body. -/
structure HttpResponse where
  status : Nat
  body : String
  deriving DecidableEq

/-- The vulnerable handler after `serde_json::from_slice` produced a parsed
document: bind permissively, then build the success message, appending the
privilege-escalation alert when `is_admin` bound to `Some(true)` and the gold
alert when `gold` bound to `Some(_)`. -/
def vulnRespond (userId : Nat) (j : Json) : HttpResponse :=
  match VulnerablePlayerState.deserialize j with
  | .error e => ⟨400, "JSON Deserialization Error: " ++ deErrMsg e⟩
  | .ok st =>
    ⟨200, "Player state for user " ++ toString userId ++ " updated. Sword level is now: " ++
        toString (st.equipment.items 2) ++ "." ++
        (if st.is_admin = some true then
          "\nALERT: Attacker successfully escalated privileges to ADMIN!"
        else "") ++
        (match st.gold with
         | some goldAmount => "\nALERT: Attacker granted themselves " ++ toString goldAmount ++ " gold!"
         | none => "")⟩

/-- `vulnerable_state_update`: decode base64, parse+bind JSON, respond. -/
def vulnerable_state_update (userId : Nat) (playerState : String) : HttpResponse :=
  match base64Decode playerState with
  | none => ⟨400, "Invalid Base64 data"⟩
  | some bytes =>
    match parseJson bytes with
    | .error e => ⟨400, "JSON Deserialization Error: " ++ e⟩
    | .ok j => vulnRespond userId j

/-- The secure handler after parsing: bind strictly, then enforce the
sword-level bound `items[2] <= 20`. -/
def secureRespond (userId : Nat) (j : Json) : HttpResponse :=
  match SecurePlayerState.deserialize j with
  | .error e =>
    ⟨400, "MITIGATED: Payload rejected due to unexpected fields. Error: " ++ deErrMsg e⟩
  | .ok st =>
    if st.equipment.items 2 > 20 then
      ⟨422, "MITIGATED: Invalid item level detected. Sword level cannot exceed 20."⟩
    else
      ⟨200, "Player state for user " ++ toString userId ++ " securely updated. Sword level is now: " ++
          toString (st.equipment.items 2) ++ "."⟩

/-- `secure_state_update`: decode base64, parse+bind JSON strictly, validate,
respond. -/
def secure_state_update (userId : Nat) (playerState : String) : HttpResponse :=
  match base64Decode playerState with
  | none => ⟨400, "Invalid Base64 data"⟩
  | some bytes =>
    match parseJson bytes with
    | .error e =>
      ⟨400, "MITIGATED: Payload rejected due to unexpected fields. Error: " ++ e⟩
    | .ok j => secureRespond userId j

/-! ### Field-multiset view of a document and binder characterizations -/

/-- Values attached to key `k` in a document's field list, in order. -/
def keyVals (k : String) (fields : List (String × Json)) : List Json :=
  (fields.filter (fun p => p.1 == k)).map Prod.snd

def eqpOk (v : Json) : Bool := isOkE (Equipment.deserialize v)
def locOk (v : Json) : Bool := isOkE (Location.deserialize v)
def iaOk (v : Json) : Bool := isOkE (deOpt deBool v)
def goldOk (v : Json) : Bool := isOkE (deOpt deU32 v)

/-- Acceptance condition of one required field slot: given the values `vs`
attached to its key, the slot (already filled or not) admits binding to
complete iff the key occurred exactly once overall with a bindable value. -/
def slotReq {α : Type} (dsOk : Json → Bool) (s : Option α) (vs : List Json) : Prop :=
  match s with
  | some _ => vs = []
  | none => ∃ v, vs = [v] ∧ dsOk v = true

/-- Acceptance condition of one optional field slot: at most one occurrence,
with a bindable value. -/
def slotOpt {α : Type} (dsOk : Json → Bool) (s : Option α) (vs : List Json) : Prop :=
  match s with
  | some _ => vs = []
  | none => vs = [] ∨ ∃ v, vs = [v] ∧ dsOk v = true

theorem keyVals_nil (k : String) : keyVals k [] = [] := rfl

theorem keyVals_cons (key k : String) (v : Json) (fields : List (String × Json)) :
    keyVals key ((k, v) :: fields) =
      if k = key then v :: keyVals key fields else keyVals key fields := by
  by_cases h : k = key <;> simp [keyVals, List.filter_cons, h]

theorem mem_keyVals {k : String} {v : Json} {fields : List (String × Json)} :
    v ∈ keyVals k fields ↔ (k, v) ∈ fields := by
  simp only [keyVals, List.mem_map, List.mem_filter]
  constructor
  · rintro ⟨⟨k1, v1⟩, ⟨hmem, hk⟩, hv⟩
    simp only [beq_iff_eq] at hk
    subst hk
    subst hv
    exact hmem
  · intro h
    exact ⟨(k, v), ⟨h, by simp⟩, rfl⟩

/-- Success characterization of the permissive binder: binding completes iff
`equipment` and `location` each occur exactly once (counting the slot already
filled) with bindable values, and each gadget field occurs at most once with a
value bindable at its optional type. -/
theorem vulnFromFields_ok_iff :
    ∀ (fields : List (String × Json)) (eq? : Option Equipment) (loc? : Option Location)
      (ia? : Option (Option Bool)) (g? : Option (Option Nat)),
    (∃ st, vulnFromFields fields eq? loc? ia? g? = .ok st) ↔
      slotReq eqpOk eq? (keyVals "equipment" fields) ∧
      slotReq locOk loc? (keyVals "location" fields) ∧
      slotOpt iaOk ia? (keyVals "isAdmin" fields) ∧
      slotOpt goldOk g? (keyVals "gold" fields) := by
  intro fields
  induction fields with
  | nil =>
    intro eq? loc? ia? g?
    cases eq? <;> cases loc? <;> cases ia? <;> cases g? <;>
      simp [vulnFromFields, keyVals_nil, slotReq, slotOpt]
  | cons p rest ih =>
    obtain ⟨k, v⟩ := p
    intro eq? loc? ia? g?
    by_cases h1 : k = "equipment"
    · subst h1
      cases eq? with
      | some e => simp [vulnFromFields, keyVals_cons, slotReq]
      | none =>
        cases hE : Equipment.deserialize v with
        | error e =>
          simp [vulnFromFields, hE, keyVals_cons, slotReq, eqpOk, isOkE]
        | ok ev =>
          have hstep : ∀ st, vulnFromFields (("equipment", v) :: rest) none loc? ia? g? = .ok st ↔
              vulnFromFields rest (some ev) loc? ia? g? = .ok st := by
            intro st
            simp [vulnFromFields, hE]
          simp only [hstep, ih (some ev) loc? ia? g?]
          simp [keyVals_cons, slotReq, eqpOk, isOkE]
          intros
          constructor
          · intro h
            exact ⟨v, ⟨rfl, h⟩, by rw [hE]⟩
          · rintro ⟨v1, ⟨rfl, h⟩, _⟩
            exact h
    · by_cases h2 : k = "location"
      · subst h2
        cases loc? with
        | some l => simp [vulnFromFields, h1, keyVals_cons, slotReq]
        | none =>
          cases hL : Location.deserialize v with
          | error e =>
            simp [vulnFromFields, h1, hL, keyVals_cons, slotReq, locOk, isOkE]
          | ok lv =>
            have hstep : ∀ st, vulnFromFields (("location", v) :: rest) eq? none ia? g? = .ok st ↔
                vulnFromFields rest eq? (some lv) ia? g? = .ok st := by
              intro st
              simp [vulnFromFields, h1, hL]
            simp only [hstep, ih eq? (some lv) ia? g?]
            simp [keyVals_cons, slotReq, locOk, isOkE]
            intros
            constructor
            · intro h
              exact ⟨v, ⟨rfl, h⟩, by rw [hL]⟩
            · rintro ⟨v1, ⟨rfl, h⟩, _⟩
              exact h
      · by_cases h3 : k = "isAdmin"
        · subst h3
          cases ia? with
          | some b => simp [vulnFromFields, h1, h2, keyVals_cons, slotOpt]
          | none =>
            cases hB : deOpt deBool v with
            | error e =>
              simp [vulnFromFields, h1, h2, hB, keyVals_cons, slotOpt, iaOk, isOkE]
            | ok bv =>
              have hstep : ∀ st, vulnFromFields (("isAdmin", v) :: rest) eq? loc? none g? = .ok st ↔
                  vulnFromFields rest eq? loc? (some bv) g? = .ok st := by
                intro st
                simp [vulnFromFields, h1, h2, hB]
              simp only [hstep, ih eq? loc? (some bv) g?]
              simp [keyVals_cons, slotOpt, iaOk, isOkE]
              intros
              constructor
              · intro h
                exact ⟨v, ⟨rfl, h⟩, by rw [hB]⟩
              · rintro ⟨v1, ⟨rfl, h⟩, _⟩
                exact h
        · by_cases h4 : k = "gold"
          · subst h4
            cases g? with
            | some g => simp [vulnFromFields, h1, h2, h3, keyVals_cons, slotOpt]
            | none =>
              cases hG : deOpt deU32 v with
              | error e =>
                simp [vulnFromFields, h1, h2, h3, hG, keyVals_cons, slotOpt, goldOk, isOkE]
              | ok gv =>
                have hstep : ∀ st, vulnFromFields (("gold", v) :: rest) eq? loc? ia? none = .ok st ↔
                    vulnFromFields rest eq? loc? ia? (some gv) = .ok st := by
                  intro st
                  simp [vulnFromFields, h1, h2, h3, hG]
                simp only [hstep, ih eq? loc? ia? (some gv)]
                simp [keyVals_cons, slotOpt, goldOk, isOkE]
                intros
                constructor
                · intro h
                  exact ⟨v, ⟨rfl, h⟩, by rw [hG]⟩
                · rintro ⟨v1, ⟨rfl, h⟩, _⟩
                  exact h
          · have hstep : ∀ st, vulnFromFields ((k, v) :: rest) eq? loc? ia? g? = .ok st ↔
                vulnFromFields rest eq? loc? ia? g? = .ok st := by
              intro st
              simp [vulnFromFields, h1, h2, h3, h4]
            simp only [hstep, keyVals_cons, if_neg h1, if_neg h2, if_neg h3, if_neg h4]
            exact ih eq? loc? ia? g?

/-- Success characterization of the strict binder: binding completes iff the
two declared fields each occur exactly once with bindable values and every key
of the document is declared. -/
theorem secFromFields_ok_iff :
    ∀ (fields : List (String × Json)) (eq? : Option Equipment) (loc? : Option Location),
    (∃ st, secFromFields fields eq? loc? = .ok st) ↔
      slotReq eqpOk eq? (keyVals "equipment" fields) ∧
      slotReq locOk loc? (keyVals "location" fields) ∧
      ∀ p ∈ fields, p.1 = "equipment" ∨ p.1 = "location" := by
  intro fields
  induction fields with
  | nil =>
    intro eq? loc?
    cases eq? <;> cases loc? <;> simp [secFromFields, keyVals_nil, slotReq]
  | cons p rest ih =>
    obtain ⟨k, v⟩ := p
    intro eq? loc?
    by_cases h1 : k = "equipment"
    · subst h1
      cases eq? with
      | some e => simp [secFromFields, keyVals_cons, slotReq]
      | none =>
        cases hE : Equipment.deserialize v with
        | error e =>
          simp [secFromFields, hE, keyVals_cons, slotReq, eqpOk, isOkE]
        | ok ev =>
          have hstep : ∀ st, secFromFields (("equipment", v) :: rest) none loc? = .ok st ↔
              secFromFields rest (some ev) loc? = .ok st := by
            intro st
            simp [secFromFields, hE]
          simp only [hstep, ih (some ev) loc?]
          simp [keyVals_cons, slotReq, eqpOk, isOkE]
          intros
          constructor
          · intro h
            exact ⟨v, ⟨rfl, h⟩, by rw [hE]⟩
          · rintro ⟨v1, ⟨rfl, h⟩, _⟩
            exact h
    · by_cases h2 : k = "location"
      · subst h2
        cases loc? with
        | some l => simp [secFromFields, h1, keyVals_cons, slotReq]
        | none =>
          cases hL : Location.deserialize v with
          | error e =>
            simp [secFromFields, h1, hL, keyVals_cons, slotReq, locOk, isOkE]
          | ok lv =>
            have hstep : ∀ st, secFromFields (("location", v) :: rest) eq? none = .ok st ↔
                secFromFields rest eq? (some lv) = .ok st := by
              intro st
              simp [secFromFields, h1, hL]
            simp only [hstep, ih eq? (some lv)]
            simp [keyVals_cons, slotReq, locOk, isOkE]
            intros
            constructor
            · intro h
              exact ⟨v, ⟨rfl, h⟩, by rw [hL]⟩
            · rintro ⟨v1, ⟨rfl, h⟩, _⟩
              exact h
      · simp [secFromFields, h1, h2, keyVals_cons]

/-- Under `deny_unknown_fields`, a document whose declared fields are unique
and bindable but which carries some undeclared key is rejected with an
unknown-field error naming an undeclared key — the undeclared value itself is
never inspected. -/
theorem secFromFields_unknown :
    ∀ (fields : List (String × Json)) (eq? : Option Equipment) (loc? : Option Location),
    slotOpt eqpOk eq? (keyVals "equipment" fields) →
    slotOpt locOk loc? (keyVals "location" fields) →
    (∃ p ∈ fields, p.1 ≠ "equipment" ∧ p.1 ≠ "location") →
    ∃ k, secFromFields fields eq? loc? = .error (.unknownField k) ∧
      k ≠ "equipment" ∧ k ≠ "location" := by
  intro fields
  induction fields with
  | nil =>
    intro eq? loc? _ _ hex
    simp at hex
  | cons p rest ih =>
    obtain ⟨k, v⟩ := p
    intro eq? loc? heq hloc hex
    by_cases h1 : k = "equipment"
    · subst h1
      rw [keyVals_cons] at heq
      simp at heq
      cases eq? with
      | some e => simp [slotOpt] at heq
      | none =>
        simp only [slotOpt] at heq
        rcases heq with h | ⟨v1, hv1, hok⟩
        · exact absurd h (by simp)
        · obtain ⟨rfl, hrest⟩ := List.cons_eq_cons.mp hv1
          simp only [eqpOk, isOkE] at hok
          cases hE : Equipment.deserialize v with
          | error e => rw [hE] at hok; simp at hok
          | ok ev =>
            have hex2 : ∃ p ∈ rest, p.1 ≠ "equipment" ∧ p.1 ≠ "location" := by
              rcases hex with ⟨q, hq, hq1, hq2⟩
              rcases List.mem_cons.mp hq with rfl | hq'
              · exact absurd rfl hq1
              · exact ⟨q, hq', hq1, hq2⟩
            have heq2 : slotOpt eqpOk (some ev) (keyVals "equipment" rest) := by
              simp [slotOpt, hrest]
            have hloc2 : slotOpt locOk loc? (keyVals "location" rest) := by
              rw [keyVals_cons] at hloc
              simpa using hloc
            obtain ⟨k2, hk2, hk2e, hk2l⟩ := ih (some ev) loc? heq2 hloc2 hex2
            refine ⟨k2, ?_, hk2e, hk2l⟩
            simp [secFromFields, hE, hk2]
    · by_cases h2 : k = "location"
      · subst h2
        rw [keyVals_cons] at hloc
        simp at hloc
        cases loc? with
        | some l => simp [slotOpt] at hloc
        | none =>
          simp only [slotOpt] at hloc
          rcases hloc with h | ⟨v1, hv1, hok⟩
          · exact absurd h (by simp)
          · obtain ⟨rfl, hrest⟩ := List.cons_eq_cons.mp hv1
            simp only [locOk, isOkE] at hok
            cases hL : Location.deserialize v with
            | error e => rw [hL] at hok; simp at hok
            | ok lv =>
              have hex2 : ∃ p ∈ rest, p.1 ≠ "equipment" ∧ p.1 ≠ "location" := by
                rcases hex with ⟨q, hq, hq1, hq2⟩
                rcases List.mem_cons.mp hq with rfl | hq'
                · exact absurd rfl hq2
                · exact ⟨q, hq', hq1, hq2⟩
              have hloc2 : slotOpt locOk (some lv) (keyVals "location" rest) := by
                simp [slotOpt, hrest]
              have heq2 : slotOpt eqpOk eq? (keyVals "equipment" rest) := by
                rw [keyVals_cons] at heq
                simpa using heq
              obtain ⟨k2, hk2, hk2e, hk2l⟩ := ih eq? (some lv) heq2 hloc2 hex2
              refine ⟨k2, ?_, hk2e, hk2l⟩
              simp [secFromFields, h1, hL, hk2]
      · exact ⟨k, by simp [secFromFields, h1, h2], h1, h2⟩

/-- First-occurrence value of an optional gadget field, under serde's
`Option` rule (`null` binds to `none`). -/
def scanVal {α : Type} (f : Json → Except DeError α) : List Json → Option α
  | [] => none
  | v :: _ =>
    match deOpt f v with
    | .ok x => x
    | .error _ => none

/-- On success, the bound `is_admin` value is determined by the (at most one)
`isAdmin` occurrence in the document. -/
theorem vulnFromFields_is_admin :
    ∀ (fields : List (String × Json)) (eq? : Option Equipment) (loc? : Option Location)
      (ia? : Option (Option Bool)) (g? : Option (Option Nat)) (st : VulnerablePlayerState),
    vulnFromFields fields eq? loc? ia? g? = .ok st →
    st.is_admin = (match ia? with
      | some x => x
      | none => scanVal deBool (keyVals "isAdmin" fields)) := by
  intro fields
  induction fields with
  | nil =>
    intro eq? loc? ia? g? st h
    cases eq? with
    | none => simp [vulnFromFields] at h
    | some e =>
      cases loc? with
      | none => simp [vulnFromFields] at h
      | some l =>
        simp only [vulnFromFields] at h
        obtain rfl := (Except.ok.injEq _ _).mp h.symm
        cases ia? <;> simp [Option.getD, keyVals_nil, scanVal]
  | cons p rest ih =>
    obtain ⟨k, v⟩ := p
    intro eq? loc? ia? g? st h
    by_cases h1 : k = "equipment"
    · subst h1
      cases eq? with
      | some e => simp [vulnFromFields] at h
      | none =>
        cases hE : Equipment.deserialize v with
        | error e => simp [vulnFromFields, hE] at h
        | ok ev =>
          simp only [vulnFromFields, if_pos rfl, hE] at h
          have := ih (some ev) loc? ia? g? st h
          simpa [keyVals_cons] using this
    · by_cases h2 : k = "location"
      · subst h2
        cases loc? with
        | some l => simp [vulnFromFields, h1] at h
        | none =>
          cases hL : Location.deserialize v with
          | error e => simp [vulnFromFields, h1, hL] at h
          | ok lv =>
            simp only [vulnFromFields, h1, if_neg h1, if_pos rfl, hL] at h
            have := ih eq? (some lv) ia? g? st h
            simpa [keyVals_cons] using this
      · by_cases h3 : k = "isAdmin"
        · subst h3
          cases ia? with
          | some b => simp [vulnFromFields, h1, h2] at h
          | none =>
            cases hB : deOpt deBool v with
            | error e => simp [vulnFromFields, h1, h2, hB] at h
            | ok bv =>
              simp only [vulnFromFields, if_neg h1, if_neg h2, if_pos rfl, hB] at h
              have := ih eq? loc? (some bv) g? st h
              rw [this]
              simp [keyVals_cons, scanVal, hB]
        · by_cases h4 : k = "gold"
          · subst h4
            cases g? with
            | some g => simp [vulnFromFields, h1, h2, h3] at h
            | none =>
              cases hG : deOpt deU32 v with
              | error e => simp [vulnFromFields, h1, h2, h3, hG] at h
              | ok gv =>
                simp only [vulnFromFields, if_neg h1, if_neg h2, if_neg h3, if_pos rfl, hG] at h
                have := ih eq? loc? ia? (some gv) st h
                simpa [keyVals_cons, h3] using this
          · simp only [vulnFromFields, if_neg h1, if_neg h2, if_neg h3, if_neg h4] at h
            have := ih eq? loc? ia? g? st h
            simpa [keyVals_cons, h3] using this

/-- On success, the bound `gold` value is determined by the (at most one)
`gold` occurrence in the document. -/
theorem vulnFromFields_gold :
    ∀ (fields : List (String × Json)) (eq? : Option Equipment) (loc? : Option Location)
      (ia? : Option (Option Bool)) (g? : Option (Option Nat)) (st : VulnerablePlayerState),
    vulnFromFields fields eq? loc? ia? g? = .ok st →
    st.gold = (match g? with
      | some x => x
      | none => scanVal deU32 (keyVals "gold" fields)) := by
  intro fields
  induction fields with
  | nil =>
    intro eq? loc? ia? g? st h
    cases eq? with
    | none => simp [vulnFromFields] at h
    | some e =>
      cases loc? with
      | none => simp [vulnFromFields] at h
      | some l =>
        simp only [vulnFromFields] at h
        obtain rfl := (Except.ok.injEq _ _).mp h.symm
        cases g? <;> simp [Option.getD, keyVals_nil, scanVal]
  | cons p rest ih =>
    obtain ⟨k, v⟩ := p
    intro eq? loc? ia? g? st h
    by_cases h1 : k = "equipment"
    · subst h1
      cases eq? with
      | some e => simp [vulnFromFields] at h
      | none =>
        cases hE : Equipment.deserialize v with
        | error e => simp [vulnFromFields, hE] at h
        | ok ev =>
          simp only [vulnFromFields, if_pos rfl, hE] at h
          have := ih (some ev) loc? ia? g? st h
          simpa [keyVals_cons] using this
    · by_cases h2 : k = "location"
      · subst h2
        cases loc? with
        | some l => simp [vulnFromFields, h1] at h
        | none =>
          cases hL : Location.deserialize v with
          | error e => simp [vulnFromFields, h1, hL] at h
          | ok lv =>
            simp only [vulnFromFields, h1, if_neg h1, if_pos rfl, hL] at h
            have := ih eq? (some lv) ia? g? st h
            simpa [keyVals_cons] using this
      · by_cases h3 : k = "isAdmin"
        · subst h3
          cases ia? with
          | some b => simp [vulnFromFields, h1, h2] at h
          | none =>
            cases hB : deOpt deBool v with
            | error e => simp [vulnFromFields, h1, h2, hB] at h
            | ok bv =>
              simp only [vulnFromFields, if_neg h1, if_neg h2, if_pos rfl, hB] at h
              have := ih eq? loc? (some bv) g? st h
              simpa [keyVals_cons] using this
        · by_cases h4 : k = "gold"
          · subst h4
            cases g? with
            | some g => simp [vulnFromFields, h1, h2, h3] at h
            | none =>
              cases hG : deOpt deU32 v with
              | error e => simp [vulnFromFields, h1, h2, h3, hG] at h
              | ok gv =>
                simp only [vulnFromFields, if_neg h1, if_neg h2, if_neg h3, if_pos rfl, hG] at h
                have := ih eq? loc? ia? (some gv) st h
                rw [this]
                simp [keyVals_cons, scanVal, hG]
          · simp only [vulnFromFields, if_neg h1, if_neg h2, if_neg h3, if_neg h4] at h
            have := ih eq? loc? ia? g? st h
            simpa [keyVals_cons, h4] using this

def itemsOk (v : Json) : Bool := isOkE (deItems v)

/-- Success characterization of the `Equipment` binder: `items` occurs exactly
once with a bindable value (other keys inside `equipment` are ignored, as the
struct does not carry `deny_unknown_fields`). -/
theorem eqpFromFields_ok_iff :
    ∀ (fields : List (String × Json)) (it? : Option (Fin 5 → Nat)),
    (∃ e, eqpFromFields fields it? = .ok e) ↔
      slotReq itemsOk it? (keyVals "items" fields) := by
  intro fields
  induction fields with
  | nil =>
    intro it?
    cases it? <;> simp [eqpFromFields, keyVals_nil, slotReq]
  | cons p rest ih =>
    obtain ⟨k, v⟩ := p
    intro it?
    by_cases h1 : k = "items"
    · subst h1
      cases it? with
      | some it => simp [eqpFromFields, keyVals_cons, slotReq]
      | none =>
        cases hI : deItems v with
        | error e =>
          simp [eqpFromFields, hI, keyVals_cons, slotReq, itemsOk, isOkE]
        | ok it =>
          have hstep : ∀ e, eqpFromFields (("items", v) :: rest) none = .ok e ↔
              eqpFromFields rest (some it) = .ok e := by
            intro e
            simp [eqpFromFields, hI]
          simp only [hstep, ih (some it)]
          simp [keyVals_cons, slotReq, itemsOk, isOkE]
          constructor
          · intro h
            exact ⟨v, ⟨rfl, h⟩, by rw [hI]⟩
          · rintro ⟨v1, ⟨rfl, h⟩, _⟩
            exact h
    · have hstep : ∀ e, eqpFromFields ((k, v) :: rest) it? = .ok e ↔
          eqpFromFields rest it? = .ok e := by
        intro e
        simp [eqpFromFields, h1]
      simp only [hstep, keyVals_cons, if_neg h1]
      exact ih it?

theorem deU32List_length :
    ∀ (xs : List Json) (ns : List Nat), deU32List xs = .ok ns → ns.length = xs.length := by
  intro xs
  induction xs with
  | nil =>
    intro ns h
    simp [deU32List] at h
    simp [← h]
  | cons v rest ih =>
    intro ns h
    cases hv : deU32 v with
    | error e => simp [deU32List, hv] at h
    | ok n =>
      cases hrest : deU32List rest with
      | error e => simp [deU32List, hv, hrest] at h
      | ok ms =>
        simp [deU32List, hv, hrest] at h
        simp [← h, ih ms hrest]

theorem deU32_natCast (n : Nat) (h : n < 4294967296) : deU32 (Json.num (n : Int)) = .ok n := by
  simp only [deU32]
  rw [if_pos ⟨Int.natCast_nonneg n, by exact_mod_cast h⟩]
  simp

theorem deI32_ok (n : Int) (h1 : -2147483648 ≤ n) (h2 : n < 2147483648) :
    deI32 (Json.num n) = .ok n := by
  simp only [deI32]
  rw [if_pos ⟨h1, h2⟩]

theorem eqp_des_items (v : Json) (it : Fin 5 → Nat) (hv : deItems v = .ok it) :
    Equipment.deserialize (.obj [("items", v)]) = .ok ⟨it⟩ := by
  show (match deItems v with
        | .error err => (.error err : Except DeError Equipment)
        | .ok it2 => eqpFromFields [] (some it2)) = .ok ⟨it⟩
  rw [hv]
  rfl

theorem deU32List_cons (v : Json) (rest : List Json) :
    deU32List (v :: rest) =
      (match deU32 v with
       | .error e => .error e
       | .ok n =>
         match deU32List rest with
         | .error e => .error e
         | .ok ns => .ok (n :: ns)) := rfl

theorem deU32List_items (e : Equipment) (h : ∀ i, e.items i < 4294967296) :
    deU32List [Json.num (e.items 0 : Int), Json.num (e.items 1 : Int),
      Json.num (e.items 2 : Int), Json.num (e.items 3 : Int), Json.num (e.items 4 : Int)] =
      .ok [e.items 0, e.items 1, e.items 2, e.items 3, e.items 4] := by
  rw [deU32List_cons, deU32_natCast _ (h 0), deU32List_cons, deU32_natCast _ (h 1),
    deU32List_cons, deU32_natCast _ (h 2), deU32List_cons, deU32_natCast _ (h 3),
    deU32List_cons, deU32_natCast _ (h 4)]
  rfl

theorem deItems_arr (xs : List Json) :
    deItems (.arr xs) =
      (match deU32List xs with
       | .error e => .error e
       | .ok ns =>
         if ns.length = 5 then .ok (fun i => ns.getD i 0)
         else .error (.invalidLength xs.length)) := rfl

theorem deItems_items (e : Equipment) (h : ∀ i, e.items i < 4294967296) :
    deItems (.arr [Json.num (e.items 0 : Int), Json.num (e.items 1 : Int),
      Json.num (e.items 2 : Int), Json.num (e.items 3 : Int), Json.num (e.items 4 : Int)]) =
      .ok e.items := by
  have hfun : (fun i : Fin 5 =>
      List.getD [e.items 0, e.items 1, e.items 2, e.items 3, e.items 4] i.val 0) = e.items := by
    funext i
    fin_cases i <;> rfl
  rw [deItems_arr, deU32List_items e h]
  show Except.ok (fun i : Fin 5 =>
      List.getD [e.items 0, e.items 1, e.items 2, e.items 3, e.items 4] i.val 0) =
    Except.ok e.items
  exact congrArg Except.ok hfun

/-- Serializing and strictly re-binding an `Equipment` with `u32`-range items
recovers the same value. -/
theorem equipment_toJson_deserialize (e : Equipment) (h : ∀ i, e.items i < 4294967296) :
    Equipment.deserialize e.toJson = .ok e := by
  have hstep := eqp_des_items _ _ (deItems_items e h)
  rw [Equipment.toJson, hstep]

theorem loc_des_fields (vx vy vz : Json) (x y : Int) (z : String)
    (hx : deI32 vx = .ok x) (hy : deI32 vy = .ok y) (hz : deString vz = .ok z) :
    Location.deserialize (.obj [("x", vx), ("y", vy), ("zone", vz)]) = .ok ⟨x, y, z⟩ := by
  show (match deI32 vx with
        | .error e => (.error e : Except DeError Location)
        | .ok x2 => locFromFields [("y", vy), ("zone", vz)] (some x2) none none) = .ok ⟨x, y, z⟩
  rw [hx]
  show (match deI32 vy with
        | .error e => (.error e : Except DeError Location)
        | .ok y2 => locFromFields [("zone", vz)] (some x) (some y2) none) = .ok ⟨x, y, z⟩
  rw [hy]
  show (match deString vz with
        | .error e => (.error e : Except DeError Location)
        | .ok z2 => locFromFields [] (some x) (some y) (some z2)) = .ok ⟨x, y, z⟩
  rw [hz]
  rfl

theorem location_toJson_deserialize (l : Location)
    (hx1 : -2147483648 ≤ l.x) (hx2 : l.x < 2147483648)
    (hy1 : -2147483648 ≤ l.y) (hy2 : l.y < 2147483648) :
    Location.deserialize l.toJson = .ok l := by
  have hstep := loc_des_fields (Json.num l.x) (Json.num l.y) (Json.str l.zone) l.x l.y l.zone
    (deI32_ok _ hx1 hx2) (deI32_ok _ hy1 hy2) rfl
  rw [Location.toJson, hstep]

theorem sec_des_fields (ve vl : Json) (eqp : Equipment) (loc : Location)
    (he : Equipment.deserialize ve = .ok eqp) (hl : Location.deserialize vl = .ok loc) :
    SecurePlayerState.deserialize (.obj [("equipment", ve), ("location", vl)]) = .ok ⟨eqp, loc⟩ := by
  show (match Equipment.deserialize ve with
        | .error e => (.error e : Except DeError SecurePlayerState)
        | .ok e2 => secFromFields [("location", vl)] (some e2) none) = .ok ⟨eqp, loc⟩
  rw [he]
  show (match Location.deserialize vl with
        | .error e => (.error e : Except DeError SecurePlayerState)
        | .ok l2 => secFromFields [] (some eqp) (some l2)) = .ok ⟨eqp, loc⟩
  rw [hl]
  rfl

/-- Two fields agree on the key, and on the value as well whenever the key is
one of the declared (strict-schema) fields.  Lifted pointwise to documents,
this captures "differing only in values attached to undeclared fields". -/
def undeclaredValueEq (p q : String × Json) : Prop :=
  p.1 = q.1 ∧ ((p.1 = "equipment" ∨ p.1 = "location") → p.2 = q.2)

/-- The strict binder never reads the value attached to an undeclared key:
its result is identical on two documents that differ only there. -/
theorem secFromFields_congr :
    ∀ (f1 f2 : List (String × Json)), List.Forall₂ undeclaredValueEq f1 f2 →
    ∀ (eq? : Option Equipment) (loc? : Option Location),
    secFromFields f1 eq? loc? = secFromFields f2 eq? loc? := by
  intro f1 f2 hrel
  induction hrel with
  | nil => intro _ _; rfl
  | @cons p q l1 l2 hpq htail ih =>
    intro eq? loc?
    obtain ⟨k1, v1⟩ := p
    obtain ⟨k2, v2⟩ := q
    obtain ⟨hk, hv⟩ := hpq
    simp only at hk hv
    subst hk
    by_cases h1 : k1 = "equipment"
    · have hv12 : v1 = v2 := hv (Or.inl h1)
      subst hv12
      subst h1
      cases eq? with
      | some e => simp [secFromFields]
      | none =>
        cases hE : Equipment.deserialize v1 with
        | error e => simp [secFromFields, hE]
        | ok ev =>
          simp only [secFromFields, if_pos rfl, hE]
          exact ih (some ev) loc?
    · by_cases h2 : k1 = "location"
      · have hv12 : v1 = v2 := hv (Or.inr h2)
        subst hv12
        subst h2
        cases loc? with
        | some l => simp [secFromFields, h1]
        | none =>
          cases hL : Location.deserialize v1 with
          | error e => simp [secFromFields, h1, hL]
          | ok lv =>
            simp only [secFromFields, if_neg h1, if_pos rfl, hL]
            exact ih eq? (some lv)
      · simp [secFromFields, h1, h2]

/-- A well-shaped `equipment` value used by concrete instances. -/
def sampleEquipment : Json :=
  .obj [("items", .arr [.num 1, .num 2, .num 3, .num 4, .num 5])]

/-- A well-shaped `location` value used by concrete instances. -/
def sampleLocation : Json :=
  .obj [("x", .num 0), ("y", .num 0), ("zone", .str "a")]

/-- Base64 of the JSON text for items `[0,0,20,0,0]` at `location (1,1,"b")`. -/
def p20Payload : String :=
  "eyJlcXVpcG1lbnQiOnsiaXRlbXMiOlswLDAsMjAsMCwwXX0sImxvY2F0aW9uIjp7IngiOjEsInkiOjEsInpvbmUiOiJiIn19"

/-- Same player state with sword level 21. -/
def p21Payload : String :=
  "eyJlcXVpcG1lbnQiOnsiaXRlbXMiOlswLDAsMjEsMCwwXX0sImxvY2F0aW9uIjp7IngiOjEsInkiOjEsInpvbmUiOiJiIn19"

/-- Same player state with sword level 25. -/
def p25Payload : String :=
  "eyJlcXVpcG1lbnQiOnsiaXRlbXMiOlswLDAsMjUsMCwwXX0sImxvY2F0aW9uIjp7IngiOjEsInkiOjEsInpvbmUiOiJiIn19"

/-!
### Claim theorems
-/

/-- C3: on the secure endpoint, for every successfully bound `PlayerState`, a
sword level (`items[2]`) of at most 20 — in particular exactly 20 — passes the
semantic validation and yields the 200 success response echoing the value,
while any sword level greater than 20 — in particular 21 — fails the check and
is mapped to status 422 with the out-of-range message. -/
theorem c3_sword_boundary (userId : Nat) (playerState : String) (bytes : List Nat)
    (j : Json) (st : SecurePlayerState)
    (hdec : base64Decode playerState = some bytes)
    (hparse : parseJson bytes = .ok j)
    (hbind : SecurePlayerState.deserialize j = .ok st) :
    (st.equipment.items 2 ≤ 20 →
      secure_state_update userId playerState =
        ⟨200, "Player state for user " ++ toString userId ++
          " securely updated. Sword level is now: " ++ toString (st.equipment.items 2) ++ "."⟩) ∧
    (st.equipment.items 2 > 20 →
      secure_state_update userId playerState =
        ⟨422, "MITIGATED: Invalid item level detected. Sword level cannot exceed 20."⟩) := by
  have hmain : secure_state_update userId playerState = secureRespond userId j := by
    simp [secure_state_update, hdec, hparse]
  constructor
  · intro h
    rw [hmain]
    simp [secureRespond, hbind, Nat.not_lt.mpr h]
  · intro h
    rw [hmain]
    simp [secureRespond, hbind, h]

/-- Witness for C3 at sword levels exactly 20 and exactly 21. -/
theorem c3_sword_boundary_witness :
    secure_state_update 7 p20Payload =
      ⟨200, "Player state for user 7 securely updated. Sword level is now: 20."⟩ ∧
    secure_state_update 7 p21Payload =
      ⟨422, "MITIGATED: Invalid item level detected. Sword level cannot exceed 20."⟩ := by
  constructor
  · exact (c3_sword_boundary 7 p20Payload _ _ _ rfl rfl rfl).1 (by decide)
  · exact (c3_sword_boundary 7 p21Payload _ _ _ rfl rfl rfl).2 (by decide)

/-- C5: the vulnerable endpoint performs no semantic-range validation: every
payload that binds in permissive mode — whatever its sword level, including
one above 20 — produces the 200 success response echoing the bound sword
level, never a 422. -/
theorem c5_vulnerable_skips_validation (userId : Nat) (playerState : String) (bytes : List Nat)
    (j : Json) (st : VulnerablePlayerState)
    (hdec : base64Decode playerState = some bytes)
    (hparse : parseJson bytes = .ok j)
    (hbind : VulnerablePlayerState.deserialize j = .ok st) :
    vulnerable_state_update userId playerState =
      ⟨200, "Player state for user " ++ toString userId ++ " updated. Sword level is now: " ++
        toString (st.equipment.items 2) ++ "." ++
        (if st.is_admin = some true then
          "\nALERT: Attacker successfully escalated privileges to ADMIN!" else "") ++
        (match st.gold with
         | some goldAmount =>
           "\nALERT: Attacker granted themselves " ++ toString goldAmount ++ " gold!"
         | none => "")⟩ ∧
    (vulnerable_state_update userId playerState).status = 200 ∧
    (vulnerable_state_update userId playerState).status ≠ 422 := by
  have hmain : vulnerable_state_update userId playerState = vulnRespond userId j := by
    simp [vulnerable_state_update, hdec, hparse]
  have hresp : vulnRespond userId j =
      ⟨200, "Player state for user " ++ toString userId ++ " updated. Sword level is now: " ++
        toString (st.equipment.items 2) ++ "." ++
        (if st.is_admin = some true then
          "\nALERT: Attacker successfully escalated privileges to ADMIN!" else "") ++
        (match st.gold with
         | some goldAmount =>
           "\nALERT: Attacker granted themselves " ++ toString goldAmount ++ " gold!"
         | none => "")⟩ := by
    simp [vulnRespond, hbind]
  refine ⟨?_, ?_, ?_⟩
  · rw [hmain, hresp]
  · rw [hmain, hresp]
  · rw [hmain, hresp]
    simp

/-- Witness for C5: a sword level of 25 (above the secure bound) passes the
vulnerable endpoint with a 200 echo. -/
theorem c5_vulnerable_skips_validation_witness :
    20 < 25 ∧ vulnerable_state_update 3 p25Payload =
      ⟨200, "Player state for user 3 updated. Sword level is now: 25."⟩ := by
  refine ⟨by decide, ?_⟩
  exact (c5_vulnerable_skips_validation 3 p25Payload _ _ _ rfl rfl rfl).1

/-- C6: on both endpoints a `playerState` that is not valid standard padded
base64 yields a 400 response whose body identifies the invalid encoding, and a
decoded but syntactically malformed JSON body yields a 400 response whose body
includes the underlying parse error text; the handlers are total functions, so
neither case can crash or partially succeed. -/
theorem c6_transport_errors (userId : Nat) (playerState : String) :
    (base64Decode playerState = none →
      vulnerable_state_update userId playerState = ⟨400, "Invalid Base64 data"⟩ ∧
      secure_state_update userId playerState = ⟨400, "Invalid Base64 data"⟩) ∧
    (∀ bytes e, base64Decode playerState = some bytes → parseJson bytes = .error e →
      vulnerable_state_update userId playerState =
        ⟨400, "JSON Deserialization Error: " ++ e⟩ ∧
      secure_state_update userId playerState =
        ⟨400, "MITIGATED: Payload rejected due to unexpected fields. Error: " ++ e⟩) := by
  constructor
  · intro h
    constructor
    · simp [vulnerable_state_update, h]
    · simp [secure_state_update, h]
  · intro bytes e h1 h2
    constructor
    · simp [vulnerable_state_update, h1, h2]
    · simp [secure_state_update, h1, h2]

/-- Witness for C6: `"not-base64!!"` is rejected as invalid base64 by both
endpoints, and `"ew=="` (decoding to a lone opening brace) is rejected with
the parse error text in the body. -/
theorem c6_transport_errors_witness :
    vulnerable_state_update 1 "not-base64!!" = ⟨400, "Invalid Base64 data"⟩ ∧
    secure_state_update 1 "not-base64!!" = ⟨400, "Invalid Base64 data"⟩ ∧
    vulnerable_state_update 1 "ew==" =
      ⟨400, "JSON Deserialization Error: unexpected end of input"⟩ ∧
    secure_state_update 1 "ew==" =
      ⟨400,
        "MITIGATED: Payload rejected due to unexpected fields. Error: unexpected end of input"⟩ := by
  refine ⟨((c6_transport_errors 1 "not-base64!!").1 rfl).1,
    ((c6_transport_errors 1 "not-base64!!").1 rfl).2, ?_, ?_⟩
  · exact ((c6_transport_errors 1 "ew==").2 [123] "unexpected end of input" rfl rfl).1
  · exact ((c6_transport_errors 1 "ew==").2 [123] "unexpected end of input" rfl rfl).2

/-- C10: the secure endpoint's response is always one of four alert-free
forms — the invalid-base64 message, the mitigated-rejection message, the
sword-level-limit message, or the plain success echo of an in-bound sword
level; in particular it never carries the vulnerable endpoint's escalation or
gold-grant announcements. -/
theorem c10_secure_body_closed (userId : Nat) (playerState : String) :
    secure_state_update userId playerState = ⟨400, "Invalid Base64 data"⟩ ∨
    (∃ m, secure_state_update userId playerState =
      ⟨400, "MITIGATED: Payload rejected due to unexpected fields. Error: " ++ m⟩) ∨
    secure_state_update userId playerState =
      ⟨422, "MITIGATED: Invalid item level detected. Sword level cannot exceed 20."⟩ ∨
    (∃ n, n ≤ 20 ∧ secure_state_update userId playerState =
      ⟨200, "Player state for user " ++ toString userId ++
        " securely updated. Sword level is now: " ++ toString n ++ "."⟩) := by
  cases hdec : base64Decode playerState with
  | none => exact Or.inl (by simp [secure_state_update, hdec])
  | some bytes =>
    cases hp : parseJson bytes with
    | error e => exact Or.inr (Or.inl ⟨e, by simp [secure_state_update, hdec, hp]⟩)
    | ok j =>
      have hmain : secure_state_update userId playerState = secureRespond userId j := by
        simp [secure_state_update, hdec, hp]
      cases hb : SecurePlayerState.deserialize j with
      | error e =>
        refine Or.inr (Or.inl ⟨deErrMsg e, ?_⟩)
        rw [hmain]
        simp [secureRespond, hb]
      | ok st =>
        by_cases hs : st.equipment.items 2 > 20
        · refine Or.inr (Or.inr (Or.inl ?_))
          rw [hmain]
          simp [secureRespond, hb, hs]
        · refine Or.inr (Or.inr (Or.inr ⟨st.equipment.items 2, by omega, ?_⟩))
          rw [hmain]
          simp [secureRespond, hb, hs]

/-- Base64 of `equipment/location` as in `sampleEquipment`/`sampleLocation`
plus `"gold": null`. -/
def goldNullPayload : String :=
  "eyJlcXVpcG1lbnQiOnsiaXRlbXMiOlsxLDIsMyw0LDVdfSwibG9jYXRpb24iOnsieCI6MCwieSI6MCwiem9uZSI6ImEifSwiZ29sZCI6bnVsbH0="

/-- The document `goldNullPayload` decodes and parses to. -/
def goldNullDoc : List (String × Json) :=
  [("equipment", sampleEquipment), ("location", sampleLocation), ("gold", Json.null)]

/-- Base64 of the same state plus `"isAdmin": true` and `"gold": 100`. -/
def adminGoldPayload : String :=
  "eyJlcXVpcG1lbnQiOnsiaXRlbXMiOlsxLDIsMyw0LDVdfSwibG9jYXRpb24iOnsieCI6MCwieSI6MCwiem9uZSI6ImEifSwiaXNBZG1pbiI6dHJ1ZSwiZ29sZCI6MTAwfQ=="

/-- C2 (amended): for every payload that decodes and binds successfully on the
vulnerable endpoint, the 200 body is the sword-level echo followed by the
escalation alert exactly when `isAdmin` was present with value `true`, and the
gold alert exactly when `gold` was present with a non-`null` value (a `gold`
field with value `null` binds to `None` and is not announced); with neither
condition the body is the plain echo alone. -/
theorem c2_alerts_iff_gadgets (userId : Nat) (playerState : String) (bytes : List Nat)
    (fields : List (String × Json)) (st : VulnerablePlayerState)
    (hdec : base64Decode playerState = some bytes)
    (hparse : parseJson bytes = .ok (.obj fields))
    (hbind : VulnerablePlayerState.deserialize (.obj fields) = .ok st) :
    vulnerable_state_update userId playerState =
      ⟨200, "Player state for user " ++ toString userId ++ " updated. Sword level is now: " ++
        toString (st.equipment.items 2) ++ "." ++
        (if st.is_admin = some true then
          "\nALERT: Attacker successfully escalated privileges to ADMIN!" else "") ++
        (match st.gold with
         | some goldAmount =>
           "\nALERT: Attacker granted themselves " ++ toString goldAmount ++ " gold!"
         | none => "")⟩ ∧
    (st.is_admin = some true ↔ ("isAdmin", Json.bool true) ∈ fields) ∧
    (st.gold.isSome = true ↔ ∃ v, ("gold", v) ∈ fields ∧ v ≠ Json.null) := by
  have hb : vulnFromFields fields none none none none = .ok st := hbind
  obtain ⟨_, _, hia, hg⟩ := (vulnFromFields_ok_iff fields none none none none).mp ⟨st, hb⟩
  have hval : st.is_admin = scanVal deBool (keyVals "isAdmin" fields) :=
    vulnFromFields_is_admin fields none none none none st hb
  have hgval : st.gold = scanVal deU32 (keyVals "gold" fields) :=
    vulnFromFields_gold fields none none none none st hb
  refine ⟨?_, ?_, ?_⟩
  · have hmain : vulnerable_state_update userId playerState = vulnRespond userId (.obj fields) := by
      simp [vulnerable_state_update, hdec, hparse]
    rw [hmain]
    simp [vulnRespond, hbind]
  · rw [hval, show (("isAdmin", Json.bool true) ∈ fields ↔
      Json.bool true ∈ keyVals "isAdmin" fields) from mem_keyVals.symm]
    rcases hia with hempty | ⟨v, hkv, hok⟩
    · rw [hempty]
      simp [scanVal]
    · rw [hkv]
      cases v with
      | null => simp [scanVal, deOpt]
      | bool b => simp [scanVal, deOpt, deBool, Except.map, eq_comm]
      | num n => simp [iaOk, isOkE, deOpt, deBool, Except.map] at hok
      | str s => simp [iaOk, isOkE, deOpt, deBool, Except.map] at hok
      | arr xs => simp [iaOk, isOkE, deOpt, deBool, Except.map] at hok
      | obj fs => simp [iaOk, isOkE, deOpt, deBool, Except.map] at hok
  · rw [hgval]
    have hmm : (∃ v, ("gold", v) ∈ fields ∧ v ≠ Json.null) ↔
        ∃ v, v ∈ keyVals "gold" fields ∧ v ≠ Json.null := by
      constructor
      · rintro ⟨v, hv, hvn⟩
        exact ⟨v, mem_keyVals.mpr hv, hvn⟩
      · rintro ⟨v, hv, hvn⟩
        exact ⟨v, mem_keyVals.mp hv, hvn⟩
    rw [hmm]
    rcases hg with hempty | ⟨v, hkv, hok⟩
    · rw [hempty]
      simp [scanVal]
    · rw [hkv]
      cases v with
      | null => simp [scanVal, deOpt]
      | num n =>
        have hr : deOpt deU32 (Json.num n) = (deU32 (Json.num n)).map some := rfl
        cases hU : deU32 (Json.num n) with
        | error e =>
          rw [goldOk, isOkE.eq_def] at hok
          rw [hr, hU] at hok
          simp [Except.map] at hok
        | ok m =>
          rw [scanVal, hr, hU]
          simp [Except.map]
      | bool b => simp [goldOk, isOkE, deOpt, deU32, Except.map] at hok
      | str s => simp [goldOk, isOkE, deOpt, deU32, Except.map] at hok
      | arr xs => simp [goldOk, isOkE, deOpt, deU32, Except.map] at hok
      | obj fs => simp [goldOk, isOkE, deOpt, deU32, Except.map] at hok

/-- Witness for C2 on a payload carrying both `isAdmin: true` and `gold: 100`:
both alerts appear in the 200 body. -/
theorem c2_alerts_iff_gadgets_witness :
    vulnerable_state_update 1 adminGoldPayload =
      ⟨200, "Player state for user 1 updated. Sword level is now: 3." ++
        "\nALERT: Attacker successfully escalated privileges to ADMIN!" ++
        "\nALERT: Attacker granted themselves 100 gold!"⟩ := by
  exact (c2_alerts_iff_gadgets 1 adminGoldPayload _ _ _ rfl rfl rfl).1

/-- C2 counterexample: `gold` is present (with value `null`) and the payload
binds successfully, yet the 200 body carries no gold-grant announcement — it
is the plain sword-level echo — refuting "announces a gold grant exactly when
the gold field was present (with any value)". -/
theorem c2_gold_null_not_announced :
    parseJson ((base64Decode goldNullPayload).getD []) = .ok (.obj goldNullDoc) ∧
    ("gold", Json.null) ∈ goldNullDoc ∧
    isOkE (VulnerablePlayerState.deserialize (.obj goldNullDoc)) = true ∧
    vulnerable_state_update 1 goldNullPayload =
      ⟨200, "Player state for user 1 updated. Sword level is now: 3."⟩ := by
  refine ⟨rfl, ?_, rfl, rfl⟩
  exact List.Mem.tail _ (List.Mem.tail _ (List.Mem.head _))

/-- Document with well-shaped declared fields and an ill-typed gadget field. -/
def adminStrDoc : List (String × Json) :=
  [("equipment", sampleEquipment), ("location", sampleLocation), ("isAdmin", Json.str "yes")]

/-- Document with well-shaped declared fields and a harmless extra field. -/
def extraFieldDoc : List (String × Json) :=
  [("equipment", sampleEquipment), ("location", sampleLocation), ("hack", Json.num 1)]

/-- C1 (amended): for a decoded JSON object whose field set is a strict
superset of `{equipment, location}` — both declared fields occurring exactly
once with well-shaped values — strict-mode binding always fails with an
unknown-field error naming an undeclared key, whatever the extra fields hold;
permissive-mode binding succeeds if additionally any `isAdmin` (resp. `gold`)
field occurs at most once with a value that binds at `Option<bool>` (resp.
`Option<u32>`) — an ill-typed or duplicated gadget field makes permissive
binding fail, because the permissive schema declares those fields. -/
theorem c1_superset_binding (fields : List (String × Json)) (ev lv : Json)
    (heq : keyVals "equipment" fields = [ev]) (heqok : eqpOk ev = true)
    (hloc : keyVals "location" fields = [lv]) (hlocok : locOk lv = true)
    (hex : ∃ p ∈ fields, p.1 ≠ "equipment" ∧ p.1 ≠ "location") :
    (∃ k, SecurePlayerState.deserialize (.obj fields) = .error (.unknownField k) ∧
      k ≠ "equipment" ∧ k ≠ "location") ∧
    (slotOpt iaOk (none : Option (Option Bool)) (keyVals "isAdmin" fields) →
      slotOpt goldOk (none : Option (Option Nat)) (keyVals "gold" fields) →
      ∃ st, VulnerablePlayerState.deserialize (.obj fields) = .ok st) := by
  constructor
  · exact secFromFields_unknown fields none none (Or.inr ⟨ev, heq, heqok⟩)
      (Or.inr ⟨lv, hloc, hlocok⟩) hex
  · intro hia hg
    exact (vulnFromFields_ok_iff fields none none none none).mpr
      ⟨⟨ev, heq, heqok⟩, ⟨lv, hloc, hlocok⟩, hia, hg⟩

/-- Witness for C1 on a document with the extra field `hack`, discharging the
gadget provisos of the permissive half as well. -/
theorem c1_superset_binding_witness :
    (∃ k, SecurePlayerState.deserialize (.obj extraFieldDoc) = .error (.unknownField k) ∧
      k ≠ "equipment" ∧ k ≠ "location") ∧
    (∃ st, VulnerablePlayerState.deserialize (.obj extraFieldDoc) = .ok st) := by
  have h := c1_superset_binding extraFieldDoc sampleEquipment sampleLocation rfl rfl rfl rfl
    ⟨("hack", Json.num 1), List.Mem.tail _ (List.Mem.tail _ (List.Mem.head _)),
      by decide, by decide⟩
  exact ⟨h.1, h.2 (Or.inl rfl) (Or.inl rfl)⟩

/-- C1 counterexample: the document's field set is a strict superset of the
declared set and both declared fields are well-shaped, yet permissive-mode
binding fails, because the extra field `isAdmin` carries a string and the
permissive schema types it as an optional boolean — refuting "permissive-mode
binding always succeeds (declared fields otherwise well-shaped)". -/
theorem c1_ill_typed_gadget_rejected_permissively :
    keyVals "equipment" adminStrDoc = [sampleEquipment] ∧ eqpOk sampleEquipment = true ∧
    keyVals "location" adminStrDoc = [sampleLocation] ∧ locOk sampleLocation = true ∧
    ("isAdmin", Json.str "yes") ∈ adminStrDoc ∧
    "isAdmin" ≠ "equipment" ∧ "isAdmin" ≠ "location" ∧
    VulnerablePlayerState.deserialize (.obj adminStrDoc) =
      .error (.invalidType "a boolean") := by
  refine ⟨rfl, rfl, rfl, rfl, ?_, by decide, by decide, rfl⟩
  exact List.Mem.tail _ (List.Mem.tail _ (List.Mem.head _))

/-- C4: the strict (secure) binder never reads the value attached to an
undeclared key, so two documents that differ only in such values produce
identical responses; in particular a strict-mode rejection response cannot
contain the supplied value of an undeclared field, and the rejection status is
400. -/
theorem c4_rejection_value_blind (userId : Nat) (f1 f2 : List (String × Json)) (e : DeError)
    (hrel : List.Forall₂ undeclaredValueEq f1 f2)
    (hrej : SecurePlayerState.deserialize (.obj f1) = .error e) :
    secureRespond userId (.obj f1) = secureRespond userId (.obj f2) ∧
    (secureRespond userId (.obj f1)).status = 400 := by
  have hcongr : SecurePlayerState.deserialize (.obj f1) =
      SecurePlayerState.deserialize (.obj f2) :=
    secFromFields_congr f1 f2 hrel none none
  constructor
  · simp only [secureRespond]
    rw [hcongr]
  · simp [secureRespond, hrej]

/-- Witness for C4: changing the value of the undeclared `isAdmin` field from
`true` to `false` leaves the secure rejection response unchanged. -/
theorem c4_rejection_value_blind_witness :
    secureRespond 5 (.obj [("equipment", sampleEquipment), ("location", sampleLocation),
        ("isAdmin", Json.bool true)]) =
      secureRespond 5 (.obj [("equipment", sampleEquipment), ("location", sampleLocation),
        ("isAdmin", Json.bool false)]) ∧
    (secureRespond 5 (.obj [("equipment", sampleEquipment), ("location", sampleLocation),
        ("isAdmin", Json.bool true)])).status = 400 := by
  refine c4_rejection_value_blind 5 _ _ (.unknownField "isAdmin") ?_ rfl
  refine List.Forall₂.cons ⟨rfl, fun _ => rfl⟩ ?_
  refine List.Forall₂.cons ⟨rfl, fun _ => rfl⟩ ?_
  refine List.Forall₂.cons ⟨rfl, fun h => absurd h (by decide)⟩ List.Forall₂.nil

/-- The player state used by the round-trip witness. -/
def rtState : SecurePlayerState :=
  ⟨⟨fun i => List.getD [1, 2, 3, 4, 5] i.val 0⟩, ⟨0, 0, "a"⟩⟩

/-- Serializing and strictly re-binding a representable `SecurePlayerState`
recovers the same state. -/
theorem secPlayer_toJson_deserialize (st : SecurePlayerState)
    (hitems : ∀ i, st.equipment.items i < 4294967296)
    (hx1 : -2147483648 ≤ st.location.x) (hx2 : st.location.x < 2147483648)
    (hy1 : -2147483648 ≤ st.location.y) (hy2 : st.location.y < 2147483648) :
    SecurePlayerState.deserialize st.toJson = .ok st := by
  have h1 := equipment_toJson_deserialize st.equipment hitems
  have h2 := location_toJson_deserialize st.location hx1 hx2 hy1 hy2
  have h3 := sec_des_fields st.equipment.toJson st.location.toJson st.equipment st.location h1 h2
  rw [SecurePlayerState.toJson, h3]

/-- The secure formatter on a bound state within the sword bound is the plain
echo response. -/
theorem secureRespond_ok_state (userId : Nat) (j : Json) (st : SecurePlayerState)
    (hdes : SecurePlayerState.deserialize j = .ok st)
    (hnot : ¬(st.equipment.items 2 > 20)) :
    secureRespond userId j =
      ⟨200, "Player state for user " ++ toString userId ++
        " securely updated. Sword level is now: " ++
        toString (st.equipment.items 2) ++ "."⟩ := by
  simp only [secureRespond]
  rw [hdes]
  show (if st.equipment.items 2 > 20 then
      (⟨422, "MITIGATED: Invalid item level detected. Sword level cannot exceed 20."⟩ :
        HttpResponse)
    else
      ⟨200, "Player state for user " ++ toString userId ++
        " securely updated. Sword level is now: " ++
        toString (st.equipment.items 2) ++ "."⟩) =
    ⟨200, "Player state for user " ++ toString userId ++
      " securely updated. Sword level is now: " ++
      toString (st.equipment.items 2) ++ "."⟩
  rw [if_neg hnot]

/-- C8: round-trip — serializing any `PlayerState` whose fields are
representable (`u32` items, `i32` coordinates) and whose sword level is within
bound, then strict-binding and formatting on the secure path, yields the 200
success response echoing the submitted sword level unchanged (and the bound
state is the submitted state). -/
theorem c8_round_trip (userId : Nat) (st : SecurePlayerState)
    (hitems : ∀ i, st.equipment.items i < 4294967296)
    (hx1 : -2147483648 ≤ st.location.x) (hx2 : st.location.x < 2147483648)
    (hy1 : -2147483648 ≤ st.location.y) (hy2 : st.location.y < 2147483648)
    (hsword : st.equipment.items 2 ≤ 20) :
    SecurePlayerState.deserialize st.toJson = .ok st ∧
    secureRespond userId st.toJson =
      ⟨200, "Player state for user " ++ toString userId ++
        " securely updated. Sword level is now: " ++
        toString (st.equipment.items 2) ++ "."⟩ := by
  have hdes := secPlayer_toJson_deserialize st hitems hx1 hx2 hy1 hy2
  exact ⟨hdes, secureRespond_ok_state userId st.toJson st hdes (Nat.not_lt.mpr hsword)⟩

/-- Witness for C8 at a concrete in-range state. -/
theorem c8_round_trip_witness :
    SecurePlayerState.deserialize rtState.toJson = .ok rtState ∧
    secureRespond 9 rtState.toJson =
      ⟨200, "Player state for user 9 securely updated. Sword level is now: 3."⟩ := by
  exact c8_round_trip 9 rtState (by decide) (by decide) (by decide) (by decide) (by decide)
    (by decide)

/-- Document missing the declared `location` field. -/
def missingLocDoc : List (String × Json) :=
  [("equipment", sampleEquipment)]

/-- C7: in both modes, a decoded object that is missing a declared field or
whose declared field is ill-shaped fails binding (never a success), and both
handlers map the failure to status 400; in particular an `equipment.items`
value that is an array of length other than 5 makes the `equipment` field
ill-shaped.  Permissiveness concerns extra fields only, never missing or
malformed declared ones. -/
theorem c7_missing_or_malformed (userId : Nat) (fields : List (String × Json)) :
    (keyVals "equipment" fields = [] ∨ keyVals "location" fields = [] ∨
      (∃ v ∈ keyVals "equipment" fields, eqpOk v = false) ∨
      (∃ v ∈ keyVals "location" fields, locOk v = false) →
      (∀ st, VulnerablePlayerState.deserialize (.obj fields) ≠ .ok st) ∧
      (∀ st, SecurePlayerState.deserialize (.obj fields) ≠ .ok st) ∧
      (vulnRespond userId (.obj fields)).status = 400 ∧
      (secureRespond userId (.obj fields)).status = 400) ∧
    (∀ efields xs, ("items", Json.arr xs) ∈ efields → xs.length ≠ 5 →
      eqpOk (.obj efields) = false) := by
  constructor
  · intro hbad
    have hvuln : ∀ st, VulnerablePlayerState.deserialize (.obj fields) ≠ .ok st := by
      intro st hok
      have hok2 : vulnFromFields fields none none none none = .ok st := hok
      obtain ⟨h1, h2, _, _⟩ := (vulnFromFields_ok_iff fields none none none none).mp ⟨st, hok2⟩
      obtain ⟨v1, hv1, hok1⟩ := h1
      obtain ⟨v2, hv2, hok2b⟩ := h2
      rcases hbad with h | h | ⟨v, hv, hfalse⟩ | ⟨v, hv, hfalse⟩
      · rw [h] at hv1
        exact absurd hv1 (by simp)
      · rw [h] at hv2
        exact absurd hv2 (by simp)
      · rw [hv1] at hv
        have hvv : v = v1 := by simpa using hv
        rw [hvv, hok1] at hfalse
        exact absurd hfalse (by simp)
      · rw [hv2] at hv
        have hvv : v = v2 := by simpa using hv
        rw [hvv, hok2b] at hfalse
        exact absurd hfalse (by simp)
    have hsec : ∀ st, SecurePlayerState.deserialize (.obj fields) ≠ .ok st := by
      intro st hok
      have hok2 : secFromFields fields none none = .ok st := hok
      obtain ⟨h1, h2, _⟩ := (secFromFields_ok_iff fields none none).mp ⟨st, hok2⟩
      obtain ⟨v1, hv1, hok1⟩ := h1
      obtain ⟨v2, hv2, hok2b⟩ := h2
      rcases hbad with h | h | ⟨v, hv, hfalse⟩ | ⟨v, hv, hfalse⟩
      · rw [h] at hv1
        exact absurd hv1 (by simp)
      · rw [h] at hv2
        exact absurd hv2 (by simp)
      · rw [hv1] at hv
        have hvv : v = v1 := by simpa using hv
        rw [hvv, hok1] at hfalse
        exact absurd hfalse (by simp)
      · rw [hv2] at hv
        have hvv : v = v2 := by simpa using hv
        rw [hvv, hok2b] at hfalse
        exact absurd hfalse (by simp)
    refine ⟨hvuln, hsec, ?_, ?_⟩
    · cases hd : VulnerablePlayerState.deserialize (.obj fields) with
      | error e => simp [vulnRespond, hd]
      | ok st => exact absurd hd (hvuln st)
    · cases hd : SecurePlayerState.deserialize (.obj fields) with
      | error e => simp [secureRespond, hd]
      | ok st => exact absurd hd (hsec st)
  · intro efields xs hmem hlen
    cases hq : eqpOk (.obj efields) with
    | false => rfl
    | true =>
      exfalso
      have hsome : ∃ e2, eqpFromFields efields none = .ok e2 := by
        simp only [eqpOk, isOkE.eq_def] at hq
        cases hd : Equipment.deserialize (.obj efields) with
        | error e => rw [hd] at hq; simp at hq
        | ok e2 => exact ⟨e2, hd⟩
      obtain ⟨v, hv, hvok⟩ := (eqpFromFields_ok_iff efields none).mp hsome
      have hmem2 : Json.arr xs ∈ keyVals "items" efields := mem_keyVals.mpr hmem
      rw [hv] at hmem2
      have hvv : Json.arr xs = v := by simpa using hmem2
      rw [← hvv] at hvok
      simp only [itemsOk, isOkE.eq_def] at hvok
      cases hi : deItems (.arr xs) with
      | error e => rw [hi] at hvok; simp at hvok
      | ok it =>
        rw [deItems_arr] at hi
        cases hdl : deU32List xs with
        | error e2 =>
          rw [hdl] at hi
          simp at hi
        | ok ns =>
          rw [hdl] at hi
          by_cases hl5 : ns.length = 5
          · have := deU32List_length xs ns hdl
            omega
          · simp [hl5] at hi

/-- Witness for C7: a document missing `location` is rejected by both binders
and both formatters answer 400; an `items` array of length 2 is ill-shaped. -/
theorem c7_missing_or_malformed_witness :
    ((∀ st, VulnerablePlayerState.deserialize (.obj missingLocDoc) ≠ .ok st) ∧
     (∀ st, SecurePlayerState.deserialize (.obj missingLocDoc) ≠ .ok st) ∧
     (vulnRespond 2 (.obj missingLocDoc)).status = 400 ∧
     (secureRespond 2 (.obj missingLocDoc)).status = 400) ∧
    eqpOk (.obj [("items", Json.arr [Json.num 1, Json.num 2])]) = false := by
  constructor
  · exact (c7_missing_or_malformed 2 missingLocDoc).1 (Or.inr (Or.inl rfl))
  · exact (c7_missing_or_malformed 2 missingLocDoc).2
      [("items", Json.arr [Json.num 1, Json.num 2])] [Json.num 1, Json.num 2]
      (List.Mem.head _) (by decide)

/-- Document with a `gold` gadget field that is neither `null` nor a `u32`. -/
def goldStrDoc : List (String × Json) :=
  [("equipment", sampleEquipment), ("location", sampleLocation), ("gold", Json.str "lots")]

/-- Document with an `isAdmin` gadget field whose value is `null`. -/
def adminNullDoc : List (String × Json) :=
  [("equipment", sampleEquipment), ("location", sampleLocation), ("isAdmin", Json.null)]

/-- C9 (amended): on the vulnerable endpoint, a payload whose gadget field is
present but does not bind at its declared optional type — `isAdmin` with a
value that is neither a boolean nor `null`, or `gold` with a value that is
neither `null` nor an integer in `[0, 2^32)` — fails binding (is never
accepted or ignored) and the handler answers 400, because the permissive
schema types these fields as `Option<bool>` and `Option<u32>`; `null` itself,
however, binds to `None`. -/
theorem c9_mistyped_gadget (userId : Nat) (fields : List (String × Json)) (v : Json)
    (hv : (v ∈ keyVals "isAdmin" fields ∧ v ≠ Json.null ∧ ∀ b, v ≠ Json.bool b) ∨
          (v ∈ keyVals "gold" fields ∧ v ≠ Json.null ∧
            ∀ n : Int, v = Json.num n → ¬(0 ≤ n ∧ n < 4294967296))) :
    (∀ st, VulnerablePlayerState.deserialize (.obj fields) ≠ .ok st) ∧
    (vulnRespond userId (.obj fields)).status = 400 := by
  have hne : ∀ st, VulnerablePlayerState.deserialize (.obj fields) ≠ .ok st := by
    intro st hok
    have hok2 : vulnFromFields fields none none none none = .ok st := hok
    obtain ⟨_, _, hia, hg⟩ := (vulnFromFields_ok_iff fields none none none none).mp ⟨st, hok2⟩
    rcases hv with ⟨hmem, hnull, hbool⟩ | ⟨hmem, hnull, hnum⟩
    · rcases hia with hempty | ⟨v1, hv1, hok1⟩
      · rw [hempty] at hmem
        simp at hmem
      · rw [hv1] at hmem
        have hvv : v = v1 := by simpa using hmem
        subst hvv
        cases v with
        | null => exact hnull rfl
        | bool b => exact hbool b rfl
        | num n => simp [iaOk, isOkE, deOpt, deBool, Except.map] at hok1
        | str s => simp [iaOk, isOkE, deOpt, deBool, Except.map] at hok1
        | arr xs => simp [iaOk, isOkE, deOpt, deBool, Except.map] at hok1
        | obj fs => simp [iaOk, isOkE, deOpt, deBool, Except.map] at hok1
    · rcases hg with hempty | ⟨v1, hv1, hok1⟩
      · rw [hempty] at hmem
        simp at hmem
      · rw [hv1] at hmem
        have hvv : v = v1 := by simpa using hmem
        subst hvv
        cases v with
        | null => exact hnull rfl
        | num n =>
          by_cases hr : 0 ≤ n ∧ n < 4294967296
          · exact hnum n rfl hr
          · simp [goldOk, isOkE, deOpt, deU32, Except.map, hr] at hok1
        | bool b => simp [goldOk, isOkE, deOpt, deU32, Except.map] at hok1
        | str s => simp [goldOk, isOkE, deOpt, deU32, Except.map] at hok1
        | arr xs => simp [goldOk, isOkE, deOpt, deU32, Except.map] at hok1
        | obj fs => simp [goldOk, isOkE, deOpt, deU32, Except.map] at hok1
  refine ⟨hne, ?_⟩
  cases hd : VulnerablePlayerState.deserialize (.obj fields) with
  | error e => simp [vulnRespond, hd]
  | ok st => exact absurd hd (hne st)

/-- Witness for C9 on a document whose `gold` field holds a string. -/
theorem c9_mistyped_gadget_witness :
    (∀ st, VulnerablePlayerState.deserialize (.obj goldStrDoc) ≠ .ok st) ∧
    (vulnRespond 4 (.obj goldStrDoc)).status = 400 := by
  apply c9_mistyped_gadget 4 goldStrDoc (Json.str "lots")
  refine Or.inr ⟨?_, by simp, ?_⟩
  · rw [show keyVals "gold" goldStrDoc = [Json.str "lots"] from rfl]
    exact List.Mem.head _
  · intro n hn
    exact absurd hn (by simp)

/-- C9 counterexample: `isAdmin` present with `null` — a non-boolean value —
binds successfully (to `None`) and the vulnerable endpoint answers 200, not
400, refuting the claim for the `null` case. -/
theorem c9_null_gadget_binds :
    ("isAdmin", Json.null) ∈ adminNullDoc ∧
    (∀ b, Json.null ≠ Json.bool b) ∧
    isOkE (VulnerablePlayerState.deserialize (.obj adminNullDoc)) = true ∧
    (vulnRespond 7 (.obj adminNullDoc)).status = 200 := by
  refine ⟨List.Mem.tail _ (List.Mem.tail _ (List.Mem.head _)), ?_, rfl, rfl⟩
  intro b h
  exact Json.noConfusion h

end InsecureDeser

namespace InsecureDeserCheck

open InsecureDeser

example : base64Decode "not-base64!!" = none := by decide

example : base64Decode "ew==" = some [123] := by decide

example :
    parseJson [123] = .error "unexpected end of input" := by rfl

example :
    secure_state_update 1
      "eyJlcXVpcG1lbnQiOnsiaXRlbXMiOlswLDAsMjAsMCwwXX0sImxvY2F0aW9uIjp7IngiOjEsInkiOjEsInpvbmUiOiJiIn19"
    = ⟨200, "Player state for user 1 securely updated. Sword level is now: 20."⟩ := by rfl

example :
    secure_state_update 1
      "eyJlcXVpcG1lbnQiOnsiaXRlbXMiOlswLDAsMjEsMCwwXX0sImxvY2F0aW9uIjp7IngiOjEsInkiOjEsInpvbmUiOiJiIn19"
    = ⟨422, "MITIGATED: Invalid item level detected. Sword level cannot exceed 20."⟩ := by rfl

example :
    vulnerable_state_update 1
      "eyJlcXVpcG1lbnQiOnsiaXRlbXMiOlsxLDIsMyw0LDVdfSwibG9jYXRpb24iOnsieCI6MCwieSI6MCwiem9uZSI6ImEifSwiaXNBZG1pbiI6dHJ1ZSwiZ29sZCI6MTAwfQ=="
    = ⟨200, "Player state for user 1 updated. Sword level is now: 3.\nALERT: Attacker successfully escalated privileges to ADMIN!\nALERT: Attacker granted themselves 100 gold!"⟩ := by rfl

example :
    vulnerable_state_update 1
      "eyJlcXVpcG1lbnQiOnsiaXRlbXMiOlsxLDIsMyw0LDVdfSwibG9jYXRpb24iOnsieCI6MCwieSI6MCwiem9uZSI6ImEifSwiZ29sZCI6bnVsbH0="
    = ⟨200, "Player state for user 1 updated. Sword level is now: 3."⟩ := by rfl

end InsecureDeserCheck
